import Mathlib

/-!
Verification of the quantum-noise-filter comparison engine
(`src/QuantFilter.py`).

The script models, for three quantum error-correction code types, the
probability that logical information survives a noisy channel, and compares
it with a code-independent "universal" detection signal (AUIL).  The core
semantics are embedded here:

* probabilities are rationals (`ℚ`), modelling the exact real arithmetic of
  the closed-form expressions;
* the fallible dispatcher `logical_survival` over string code identifiers
  returns `Except String ℚ`, the `.error` branch modelling the Python
  `raise ValueError("Unknown code")`;
* the closed set of supported identifiers is also given as the inductive
  type `Code`, with `survival` the total restriction of `logical_survival`
  to it (lemma `logical_survival_name` connects the two);
* `np.mean` over a boolean array is embedded as `np_mean : List Bool →
  Option ℚ`; the `none` result models the NaN (with a RuntimeWarning, no
  exception) that numpy produces for an empty array;
* the pseudo-random draws of the single-run trace are modelled as an input
  list of uniform values, one per grid point, consumed in grid order.
-/

/-- `n_qubits = 1048576`, the fixed system size (line 6 of the source). -/
def n_qubits : ℕ := 1048576

/-- The closed, ordered list of code identifiers (line 5 of the source). -/
def codes : List String := ["bit-flip", "phase-flip", "depolarizing"]

/-- `p_vals = np.linspace(0, 1, 41)` (line 7 of the source): the noise grid,
41 uniformly spaced rationals `i / 40`. -/
def p_vals : List ℚ := (List.range 41).map (fun i => (i : ℚ) / 40)

/-- `logical_survival(code, p)` (lines 14-21 of the source): the QEC logical
survival probability.  For `"bit-flip"` and `"phase-flip"` it is the two-term
formula `(1-p)^n + n p (1-p)^(n-1)`; for `"depolarizing"` it is `(1-p)^n`;
any other identifier raises `ValueError("Unknown code")`, modelled as the
`.error` branch. -/
def logical_survival (code : String) (p : ℚ) : Except String ℚ :=
  if code ∈ ["bit-flip", "phase-flip"] then
    .ok ((1 - p) ^ n_qubits + (n_qubits : ℚ) * p * (1 - p) ^ (n_qubits - 1))
  else if code = "depolarizing" then
    .ok ((1 - p) ^ n_qubits)
  else
    .error "Unknown code"

/-- `AUIL_signal(code, p)` (lines 23-26 of the source): the universal signal
`max(0, 1 - n_qubits * p)`.  The `code` argument is ignored. -/
def AUIL_signal (code : String) (p : ℚ) : ℚ :=
  max 0 (1 - (n_qubits : ℚ) * p)

/-- The closed set of supported code identifiers, in source order. -/
inductive Code : Type
  | bitFlip : Code
  | phaseFlip : Code
  | depolarizing : Code
deriving DecidableEq

/-- The string identifier of each supported code. -/
def Code.name : Code → String
  | .bitFlip => "bit-flip"
  | .phaseFlip => "phase-flip"
  | .depolarizing => "depolarizing"

/-- The survival probability of `logical_survival` restricted to the
supported codes (same formulas, total). -/
def survival (c : Code) (p : ℚ) : ℚ :=
  match c with
  | .bitFlip =>
      (1 - p) ^ n_qubits + (n_qubits : ℚ) * p * (1 - p) ^ (n_qubits - 1)
  | .phaseFlip =>
      (1 - p) ^ n_qubits + (n_qubits : ℚ) * p * (1 - p) ^ (n_qubits - 1)
  | .depolarizing =>
      (1 - p) ^ n_qubits

/-- On supported codes the string dispatcher returns `.ok` of `survival`. -/
theorem logical_survival_name (c : Code) (p : ℚ) :
    logical_survival c.name p = .ok (survival c p) := by
  cases c <;> simp [logical_survival, survival, Code.name]

/-- `QEC_curves[code]` (line 32 of the source): the survival model evaluated
pointwise over a noise grid. -/
def QEC_curve (c : Code) (grid : List ℚ) : List ℚ :=
  grid.map (survival c)

/-- `AUIL_curves[code]` (line 33 of the source): the signal model evaluated
pointwise over a noise grid. -/
def AUIL_curve (c : Code) (grid : List ℚ) : List ℚ :=
  grid.map (AUIL_signal c.name)

/-- `diff = QEC_curves[code] - AUIL_curves[code]` (line 80 of the source):
the residual curve, an elementwise subtraction of the two curves. -/
def residual_curve (c : Code) (grid : List ℚ) : List ℚ :=
  List.zipWith (fun a b => a - b) (QEC_curve c grid) (AUIL_curve c grid)

/-- `truth = (QEC_curves[code] > 0.5)` (line 114 of the source). -/
def truth_bits (c : Code) (grid : List ℚ) : List Bool :=
  (QEC_curve c grid).map (fun v => decide ((1 : ℚ)/2 < v))

/-- `pred = (AUIL_curves[code] > 0.5)` (line 115 of the source). -/
def pred_bits (c : Code) (grid : List ℚ) : List Bool :=
  (AUIL_curve c grid).map (fun v => decide ((1 : ℚ)/2 < v))

/-- `np.mean` of a boolean array: the fraction of `true` entries; on an
empty array numpy emits a RuntimeWarning and yields NaN, modelled as
`none`. -/
def np_mean (l : List Bool) : Option ℚ :=
  if l.isEmpty then none else some ((l.count true : ℚ) / (l.length : ℚ))

/-- `tp = np.mean((truth == 1) & (pred == 1))` (line 116 of the source). -/
def true_pos (c : Code) (grid : List ℚ) : Option ℚ :=
  np_mean (List.zipWith (fun t q => t && q) (truth_bits c grid) (pred_bits c grid))

/-- `fp = np.mean((truth == 0) & (pred == 1))` (line 117 of the source). -/
def false_pos (c : Code) (grid : List ℚ) : Option ℚ :=
  np_mean (List.zipWith (fun t q => !t && q) (truth_bits c grid) (pred_bits c grid))

/-- `single_run_p = np.linspace(0, 1, 50)` (line 91 of the source). -/
def single_run_p : List ℚ := (List.range 50).map (fun i => (i : ℚ) / 49)

/-- `single_code = "bit-flip"` (line 92 of the source). -/
def single_code : Code := Code.bitFlip

/-- The simulated logical trace (lines 93-97 of the source): at grid point
`p` with uniform draw `u`, the logical bit is `u < survival(code, p)`.  The
pseudo-random uniforms are modelled as the input list `us`, consumed in grid
order. -/
def trial_bits (c : Code) (grid us : List ℚ) : List Bool :=
  List.zipWith (fun p u => decide (u < survival c p)) grid us

/-- `AUIL_bits = (AUIL_signal(single_code, single_run_p) > 0)` (line 98 of
the source): the deterministic AUIL trace. -/
def AUIL_bits (c : Code) (grid : List ℚ) : List Bool :=
  grid.map (fun p => decide (0 < AUIL_signal c.name p))

/-! ### Helper lemmas -/

/-- `zipWith` of two maps over the same list is a single map. -/
theorem zipWith_map_same {α β γ δ : Type} (f : β → γ → δ) (g : α → β)
    (h : α → γ) (l : List α) :
    List.zipWith f (l.map g) (l.map h) = l.map (fun x => f (g x) (h x)) := by
  induction l with
  | nil => rfl
  | cons a t ih => simp [ih]

/-- Counting `true` in a mapped boolean list is `countP`. -/
theorem count_true_map {α : Type} (f : α → Bool) (l : List α) :
    (l.map f).count true = l.countP f := by
  induction l with
  | nil => rfl
  | cons a t ih =>
      simp only [List.map_cons, List.count_cons, List.countP_cons, ih]
      cases f a <;> simp

/-! ### Claim theorems (easy group) -/

/-- Claim C9: the Signal Model is independent of its code-identifier
argument: any two identifiers (in particular any two supported codes) give
the same signal value at every noise probability. -/
theorem AUIL_signal_code_independent (a b : String) (p : ℚ) :
    AUIL_signal a p = AUIL_signal b p := rfl

/-- Claim C7: for every supported code the Survival Model returns exactly 1
at `p = 0` and exactly 0 at `p = 1`. -/
theorem survival_boundary (c : Code) :
    survival c 0 = 1 ∧ survival c 1 = 0 := by
  cases c <;> constructor <;> norm_num [survival, n_qubits]

/-- Claim C2: the Signal Model returns `max(0, 1 - n·p)`; it equals the
strictly positive value `1 - n·p` exactly when `p < 1/n`, and equals 0 for
every `p ≥ 1/n`. -/
theorem AUIL_signal_spec (code : String) (p : ℚ) :
    AUIL_signal code p = max 0 (1 - (n_qubits : ℚ) * p) ∧
    (p < 1 / (n_qubits : ℚ) →
      AUIL_signal code p = 1 - (n_qubits : ℚ) * p ∧ 0 < AUIL_signal code p) ∧
    (1 / (n_qubits : ℚ) ≤ p → AUIL_signal code p = 0) := by
  have hn : (0 : ℚ) < (n_qubits : ℚ) := by norm_num [n_qubits]
  refine ⟨rfl, fun h => ?_, fun h => ?_⟩
  · rw [lt_div_iff hn] at h
    have hpos : (0 : ℚ) < 1 - (n_qubits : ℚ) * p := by nlinarith
    constructor
    · simp only [AUIL_signal]
      exact max_eq_right hpos.le
    · simp only [AUIL_signal]
      exact lt_max_of_lt_right hpos
  · rw [div_le_iff hn] at h
    simp only [AUIL_signal]
    apply max_eq_left
    nlinarith

/-- Witness for C2 at `code = "bit-flip"`, `p = 0` and `p = 1`. -/
theorem AUIL_signal_spec_witness :
    (AUIL_signal "bit-flip" 0 = 1 - (n_qubits : ℚ) * 0 ∧
      0 < AUIL_signal "bit-flip" 0) ∧
    AUIL_signal "bit-flip" 1 = 0 :=
  ⟨(AUIL_signal_spec "bit-flip" 0).2.1 (by norm_num [n_qubits]),
   (AUIL_signal_spec "bit-flip" 1).2.2 (by norm_num [n_qubits])⟩

/-- Claim C6: the Survival Model fails (raises `ValueError`, modelled as
`.error "Unknown code"`) exactly when the identifier is not one of the three
supported codes, and returns normally on every supported identifier. -/
theorem logical_survival_error_iff (code : String) (p : ℚ) :
    ((logical_survival code p = .error "Unknown code") ↔ code ∉ codes) ∧
    (code ∈ codes → ∃ v, logical_survival code p = .ok v) := by
  by_cases h1 : code = "bit-flip"
  · subst h1; simp [logical_survival, codes]
  · by_cases h2 : code = "phase-flip"
    · subst h2; simp [logical_survival, codes]
    · by_cases h3 : code = "depolarizing"
      · subst h3; simp [logical_survival, codes]
      · simp [logical_survival, codes, h1, h2, h3]

/-- Witness for C6 at a supported and an unsupported identifier. -/
theorem logical_survival_error_iff_witness :
    (∃ v, logical_survival "depolarizing" (1/2) = .ok v) ∧
    ((logical_survival "surface" (1/2) = .error "Unknown code") ↔
      "surface" ∉ codes) :=
  ⟨(logical_survival_error_iff "depolarizing" (1/2)).2 (by decide),
   (logical_survival_error_iff "surface" (1/2)).1⟩

/-- Claim C8: the residual curve is the elementwise difference
`survival(code, p) - signal(code, p)` over the grid, with the same length as
the grid; the subtraction is not clamped, so negative values are
representable. -/
theorem residual_spec (c : Code) (grid : List ℚ) :
    residual_curve c grid =
      grid.map (fun p => survival c p - AUIL_signal c.name p) ∧
    (residual_curve c grid).length = grid.length := by
  have h : residual_curve c grid =
      grid.map (fun p => survival c p - AUIL_signal c.name p) :=
    zipWith_map_same _ _ _ grid
  exact ⟨h, by rw [h, List.length_map]⟩

/-! ### Classification claims -/

/-- The combined `truth & pred` bits reduce to a single `countP` over the
grid. -/
theorem tp_count (c : Code) (grid : List ℚ) :
    (List.zipWith (fun t q => t && q) (truth_bits c grid)
        (pred_bits c grid)).count true =
      grid.countP (fun p =>
        decide ((1 : ℚ)/2 < survival c p) &&
        decide ((1 : ℚ)/2 < AUIL_signal c.name p)) := by
  unfold truth_bits pred_bits QEC_curve AUIL_curve
  rw [List.map_map, List.map_map, zipWith_map_same, count_true_map]
  rfl

/-- The combined `!truth & pred` bits reduce to a single `countP` over the
grid. -/
theorem fp_count (c : Code) (grid : List ℚ) :
    (List.zipWith (fun t q => !t && q) (truth_bits c grid)
        (pred_bits c grid)).count true =
      grid.countP (fun p =>
        !(decide ((1 : ℚ)/2 < survival c p)) &&
        decide ((1 : ℚ)/2 < AUIL_signal c.name p)) := by
  unfold truth_bits pred_bits QEC_curve AUIL_curve
  rw [List.map_map, List.map_map, zipWith_map_same, count_true_map]
  rfl

/-- Length of the combined truth/pred bit lists. -/
theorem zip_bits_length (c : Code) (grid : List ℚ)
    (f : Bool → Bool → Bool) :
    (List.zipWith f (truth_bits c grid) (pred_bits c grid)).length =
      grid.length := by
  simp [truth_bits, pred_bits, QEC_curve, AUIL_curve]

/-- A `countP` fraction lies in `[0, 1]` for a non-empty list. -/
theorem countP_frac_mem (l : List ℚ) (q : ℚ → Bool) (h : l ≠ []) :
    0 ≤ (l.countP q : ℚ) / (l.length : ℚ) ∧
      (l.countP q : ℚ) / (l.length : ℚ) ≤ 1 := by
  have hlen : 0 < (l.length : ℚ) := by
    have := List.length_pos.mpr h
    exact_mod_cast this
  constructor
  · apply div_nonneg _ hlen.le
    positivity
  · rw [div_le_one hlen]
    exact_mod_cast List.countP_le_length q

/-- Claim C3: on a non-empty grid, the classification summary thresholds the
QEC curve (truth) and the AUIL curve (prediction) at the fixed cutoff `1/2`;
the true-positive rate is the fraction of grid points where both exceed
`1/2`, the false-positive rate is the fraction where the truth is `≤ 1/2`
and the prediction exceeds `1/2`, and both rates lie in `[0, 1]`. -/
theorem classification_spec (c : Code) (grid : List ℚ) (h : grid ≠ []) :
    ∃ t f : ℚ,
      true_pos c grid = some t ∧ false_pos c grid = some f ∧
      t = (grid.countP (fun p =>
            decide ((1 : ℚ)/2 < survival c p) &&
            decide ((1 : ℚ)/2 < AUIL_signal c.name p)) : ℚ) /
          (grid.length : ℚ) ∧
      f = (grid.countP (fun p =>
            !(decide ((1 : ℚ)/2 < survival c p)) &&
            decide ((1 : ℚ)/2 < AUIL_signal c.name p)) : ℚ) /
          (grid.length : ℚ) ∧
      0 ≤ t ∧ t ≤ 1 ∧ 0 ≤ f ∧ f ≤ 1 := by
  have hne : ¬ (List.zipWith (fun t q => t && q) (truth_bits c grid)
      (pred_bits c grid)).isEmpty := by
    rw [List.isEmpty_iff_length_eq_zero, zip_bits_length]
    simpa [List.length_eq_zero] using h
  have hne' : ¬ (List.zipWith (fun t q => !t && q) (truth_bits c grid)
      (pred_bits c grid)).isEmpty := by
    rw [List.isEmpty_iff_length_eq_zero, zip_bits_length]
    simpa [List.length_eq_zero] using h
  have htp : true_pos c grid = some ((grid.countP (fun p =>
      decide ((1 : ℚ)/2 < survival c p) &&
      decide ((1 : ℚ)/2 < AUIL_signal c.name p)) : ℚ) /
      (grid.length : ℚ)) := by
    unfold true_pos np_mean
    rw [if_neg hne, tp_count, zip_bits_length]
  have hfp : false_pos c grid = some ((grid.countP (fun p =>
      !(decide ((1 : ℚ)/2 < survival c p)) &&
      decide ((1 : ℚ)/2 < AUIL_signal c.name p)) : ℚ) /
      (grid.length : ℚ)) := by
    unfold false_pos np_mean
    rw [if_neg hne', fp_count, zip_bits_length]
  exact ⟨_, _, htp, hfp, rfl, rfl,
    (countP_frac_mem grid _ h).1, (countP_frac_mem grid _ h).2,
    (countP_frac_mem grid _ h).1, (countP_frac_mem grid _ h).2⟩

/-- Witness for C3 on the concrete two-point grid `[0, 1/2]`. -/
theorem classification_spec_witness :
    ∃ t f : ℚ,
      true_pos Code.bitFlip [0, 1/2] = some t ∧
      false_pos Code.bitFlip [0, 1/2] = some f ∧
      t = (([0, 1/2] : List ℚ).countP (fun p =>
            decide ((1 : ℚ)/2 < survival Code.bitFlip p) &&
            decide ((1 : ℚ)/2 <
              AUIL_signal (Code.name Code.bitFlip) p)) : ℚ) /
          (([0, 1/2] : List ℚ).length : ℚ) ∧
      f = (([0, 1/2] : List ℚ).countP (fun p =>
            !(decide ((1 : ℚ)/2 < survival Code.bitFlip p)) &&
            decide ((1 : ℚ)/2 <
              AUIL_signal (Code.name Code.bitFlip) p)) : ℚ) /
          (([0, 1/2] : List ℚ).length : ℚ) ∧
      0 ≤ t ∧ t ≤ 1 ∧ 0 ≤ f ∧ f ≤ 1 :=
  classification_spec Code.bitFlip [0, 1/2] (by simp)

/-! ### Stochastic trial claim -/

/-- Claim C4: for the selected code, the trial outcome at each grid point
`i` (taken in grid order, pairing the `i`-th uniform draw with the `i`-th
grid point) is `true` iff the draw is below the survival probability there,
and the paired AUIL trace is deterministic: `true` iff the signal value is
positive. -/
theorem trial_spec (c : Code) (grid us : List ℚ)
    (h : us.length = grid.length) (i : ℕ) (hi : i < grid.length) :
    (trial_bits c grid us).length = grid.length ∧
    (trial_bits c grid us).getD i false =
      decide (us.getD i 0 < survival c (grid.getD i 0)) ∧
    (AUIL_bits c grid).length = grid.length ∧
    (AUIL_bits c grid).getD i false =
      decide (0 < AUIL_signal c.name (grid.getD i 0)) := by
  have hiu : i < us.length := h ▸ hi
  refine ⟨by simp [trial_bits, h], ?_, by simp [AUIL_bits], ?_⟩
  · unfold trial_bits
    rw [List.getD_eq_getElem?_getD, List.getD_eq_getElem?_getD,
      List.getD_eq_getElem?_getD, List.getElem?_zipWith]
    simp [List.getElem?_eq_getElem, hi, hiu]
  · rw [List.getD_eq_getElem?_getD, List.getD_eq_getElem?_getD]
    simp [AUIL_bits, List.getElem?_eq_getElem, hi]

/-- Witness for C4 on the two-point grid `[0, 1/2]` with draws
`[1/2, 1/4]` at index 0. -/
theorem trial_spec_witness :
    (trial_bits single_code [0, 1/2] [1/2, 1/4]).length =
      ([0, 1/2] : List ℚ).length ∧
    (trial_bits single_code [0, 1/2] [1/2, 1/4]).getD 0 false =
      decide (([1/2, 1/4] : List ℚ).getD 0 0 <
        survival single_code (([0, 1/2] : List ℚ).getD 0 0)) ∧
    (AUIL_bits single_code [0, 1/2]).length = ([0, 1/2] : List ℚ).length ∧
    (AUIL_bits single_code [0, 1/2]).getD 0 false =
      decide (0 < AUIL_signal (Code.name single_code)
        (([0, 1/2] : List ℚ).getD 0 0)) :=
  trial_spec single_code [0, 1/2] [1/2, 1/4] (by rfl) 0 (by norm_num)

/-! ### Empty-grid behaviour -/

/-- Counterexample to C5: on the empty grid the classification computation
does not fail.  `np.mean` of an empty array yields NaN (modelled as `none`)
with only a RuntimeWarning, so both rates are returned normally as NaN — a
degenerate result, not a raised `DegenerateGridError`. -/
theorem empty_grid_no_failure :
    true_pos Code.bitFlip [] = none ∧ false_pos Code.bitFlip [] = none :=
  ⟨rfl, rfl⟩

/-- Claim C5 amended: for every code, passing an empty grid to the
classification step makes both rates the NaN value (`none`), produced by
`np.mean` of an empty array; the computation returns normally (emitting only
a RuntimeWarning) rather than raising an error. -/
theorem empty_grid_nan (c : Code) :
    true_pos c [] = none ∧ false_pos c [] = none := by
  cases c <;> exact ⟨rfl, rfl⟩

/-! ### Monotonicity of the survival model

The two-term survival expression at noise `p` equals
`(m+1)·q^m − m·q^(m+1)` for `q = 1−p` and `m = n_qubits − 1`; that shape is
monotone non-decreasing in `q` on `[0,1]`, proved through the geometric-sum
factorisation of `q2^k − q1^k`. -/

/-- Rewriting the two-term survival expression in the variable `q`. -/
theorem two_term_shape (m : ℕ) (q : ℚ) :
    q^(m+1) + ((m:ℚ)+1) * (1 - q) * q^m =
      ((m:ℚ)+1) * q^m - (m:ℚ) * q^(m+1) := by
  ring

/-- Splitting off the `i = 0` term of the geometric double sum. -/
theorem geom_split (q1 q2 : ℚ) (m : ℕ) :
    (∑ i in Finset.range (m+1), q2^i * q1^(m - i)) =
      q2 * (∑ i in Finset.range m, q2^i * q1^(m - 1 - i)) + q1^m := by
  rw [Finset.sum_range_succ']
  simp only [pow_zero, one_mul, Nat.sub_zero]
  rw [Finset.mul_sum]
  congr 1
  apply Finset.sum_congr rfl
  intro i hi
  have he : m - (i+1) = m - 1 - i := by omega
  rw [he, pow_succ]
  ring

/-- Each of the `k+1` terms of the geometric double sum dominates
`q1^k`. -/
theorem geom_ge (q1 q2 : ℚ) (k : ℕ) (h0 : 0 ≤ q1) (h12 : q1 ≤ q2) :
    ((k:ℚ)+1) * q1^k ≤ ∑ i in Finset.range (k+1), q2^i * q1^(k-i) := by
  have hb : ∀ i ∈ Finset.range (k+1), q1^k ≤ q2^i * q1^(k-i) := by
    intro i hi
    have hik : i ≤ k := Nat.lt_succ_iff.mp (Finset.mem_range.mp hi)
    calc q1^k = q1^i * q1^(k-i) := by rw [← pow_add]; congr 1; omega
    _ ≤ q2^i * q1^(k-i) :=
        mul_le_mul_of_nonneg_right (pow_le_pow_left₀ h0 h12 i) (pow_nonneg h0 _)
  have hs := Finset.card_nsmul_le_sum (Finset.range (k+1)) _ _ hb
  simp only [Finset.card_range, nsmul_eq_mul] at hs
  calc ((k:ℚ)+1) * q1^k = ((k+1 : ℕ) : ℚ) * q1^k := by push_cast; ring
  _ ≤ _ := hs

/-- The map `q ↦ (m+1)·q^m − m·q^(m+1)` is monotone non-decreasing on
`[0, 1]`. -/
theorem key_ineq (m : ℕ) (q1 q2 : ℚ) (h0 : 0 ≤ q1) (h12 : q1 ≤ q2)
    (h21 : q2 ≤ 1) :
    ((m:ℚ)+1) * q1^m - (m:ℚ) * q1^(m+1) ≤
      ((m:ℚ)+1) * q2^m - (m:ℚ) * q2^(m+1) := by
  have hq20 : (0:ℚ) ≤ q2 := le_trans h0 h12
  have hfac1 : (∑ i in Finset.range m, q2^i * q1^(m - 1 - i)) * (q2 - q1) =
      q2^m - q1^m := geom_sum₂_mul q2 q1 m
  have hfac2 : (∑ i in Finset.range (m+1), q2^i * q1^(m - i)) * (q2 - q1) =
      q2^(m+1) - q1^(m+1) := by
    have h := geom_sum₂_mul q2 q1 (m+1)
    simpa using h
  set S1 := ∑ i in Finset.range m, q2^i * q1^(m - 1 - i) with hS1
  set S2 := ∑ i in Finset.range (m+1), q2^i * q1^(m - i) with hS2
  have hmain : (m:ℚ) * S2 ≤ ((m:ℚ)+1) * S1 := by
    cases m with
    | zero => simp [hS1]
    | succ k =>
      have hsplit : S2 = q2 * S1 + q1^(k+1) := by
        rw [hS2, hS1]
        exact geom_split q1 q2 (k+1)
      have hge : ((k:ℚ)+1) * q1^k ≤ S1 := by
        rw [hS1]
        exact geom_ge q1 q2 k h0 h12
      have hS1nn : (0:ℚ) ≤ S1 := by
        rw [hS1]
        apply Finset.sum_nonneg
        intro i hi
        exact mul_nonneg (pow_nonneg hq20 _) (pow_nonneg h0 _)
      have hq11 : q1 ≤ 1 := le_trans h12 h21
      have h1 : ((k:ℚ)+1) * q1^(k+1) ≤ S1 := by
        have ha : ((k:ℚ)+1) * q1^k * q1 ≤ S1 * q1 :=
          mul_le_mul_of_nonneg_right hge h0
        have hb : S1 * q1 ≤ S1 := by nlinarith
        calc ((k:ℚ)+1) * q1^(k+1) = ((k:ℚ)+1) * q1^k * q1 := by ring
        _ ≤ S1 * q1 := ha
        _ ≤ S1 := hb
      have hint : (0:ℚ) ≤ ((k:ℚ)+1) * S1 * (1 - q2) := by
        apply mul_nonneg (mul_nonneg _ hS1nn)
        · linarith
        · positivity
      have h2 : ((k:ℚ)+1) * (q2 * S1) ≤ ((k:ℚ)+1) * S1 := by nlinarith [hint]
      push_cast
      rw [hsplit]
      nlinarith [h1, h2]
  have hd : (0:ℚ) ≤ q2 - q1 := by linarith
  have h5 : (m:ℚ) * (q2^(m+1) - q1^(m+1)) ≤ ((m:ℚ)+1) * (q2^m - q1^m) := by
    rw [← hfac1, ← hfac2]
    calc (m:ℚ) * (S2 * (q2-q1)) = ((m:ℚ) * S2) * (q2-q1) := by ring
    _ ≤ (((m:ℚ)+1) * S1) * (q2-q1) := mul_le_mul_of_nonneg_right hmain hd
    _ = ((m:ℚ)+1) * (S1 * (q2-q1)) := by ring
  linarith

/-- The two-term survival expression with `m+1` physical qubits is
non-increasing in the noise probability on `[0, 1]`. -/
theorem two_term_antitone_gen (m : ℕ) (p1 p2 : ℚ) (h0 : 0 ≤ p1)
    (h12 : p1 ≤ p2) (h21 : p2 ≤ 1) :
    (1 - p2)^(m+1) + ((m:ℚ)+1) * p2 * (1 - p2)^m ≤
      (1 - p1)^(m+1) + ((m:ℚ)+1) * p1 * (1 - p1)^m := by
  have key := key_ineq m (1 - p2) (1 - p1) (by linarith) (by linarith)
    (by linarith)
  have e2 := two_term_shape m (1 - p2)
  have e1 := two_term_shape m (1 - p1)
  rw [(by ring : (1 - (1 - p2)) = p2)] at e2
  rw [(by ring : (1 - (1 - p1)) = p1)] at e1
  linarith

/-- The survival model is non-increasing in the noise probability, for every
supported code. -/
theorem survival_antitone (c : Code) (p1 p2 : ℚ) (h0 : 0 ≤ p1)
    (h12 : p1 ≤ p2) (h21 : p2 ≤ 1) : survival c p2 ≤ survival c p1 := by
  have hq0 : (0:ℚ) ≤ 1 - p2 := by linarith
  have hq12 : 1 - p2 ≤ 1 - p1 := by linarith
  have hflip : (1 - p2)^n_qubits +
      (n_qubits:ℚ) * p2 * (1 - p2)^(n_qubits - 1) ≤
      (1 - p1)^n_qubits + (n_qubits:ℚ) * p1 * (1 - p1)^(n_qubits - 1) := by
    have h := two_term_antitone_gen 1048575 p1 p2 h0 h12 h21
    norm_num at h
    norm_num [n_qubits]
    exact h
  cases c with
  | bitFlip => simpa only [survival] using hflip
  | phaseFlip => simpa only [survival] using hflip
  | depolarizing =>
      simp only [survival]
      exact pow_le_pow_left₀ hq0 hq12 n_qubits

/-- The two-term survival expression is non-negative on `[0, 1]`. -/
theorem two_term_nonneg (p : ℚ) (h0 : 0 ≤ p) (h1 : p ≤ 1) :
    0 ≤ (1 - p)^n_qubits + (n_qubits:ℚ) * p * (1 - p)^(n_qubits - 1) := by
  have hq : (0:ℚ) ≤ 1 - p := by linarith
  have hn : (0:ℚ) ≤ (n_qubits:ℚ) := by positivity
  have t1 : (0:ℚ) ≤ (1-p)^n_qubits := pow_nonneg hq _
  have t2 : (0:ℚ) ≤ (n_qubits:ℚ) * p * (1-p)^(n_qubits-1) :=
    mul_nonneg (mul_nonneg hn h0) (pow_nonneg hq _)
  linarith

/-- The survival model is non-negative on `[0, 1]`. -/
theorem survival_nonneg (c : Code) (p : ℚ) (h0 : 0 ≤ p) (h1 : p ≤ 1) :
    0 ≤ survival c p := by
  have hq : (0:ℚ) ≤ 1 - p := by linarith
  cases c with
  | bitFlip => exact two_term_nonneg p h0 h1
  | phaseFlip => exact two_term_nonneg p h0 h1
  | depolarizing => exact pow_nonneg hq n_qubits

/-- The survival model returns exactly 1 at zero noise. -/
theorem survival_at_zero (c : Code) : survival c 0 = 1 := by
  cases c <;> norm_num [survival, n_qubits]

/-- The survival model is bounded by 1 on `[0, 1]`. -/
theorem survival_le_one (c : Code) (p : ℚ) (h0 : 0 ≤ p) (h1 : p ≤ 1) :
    survival c p ≤ 1 := by
  have h := survival_antitone c 0 p le_rfl h0 h1
  rwa [survival_at_zero] at h

/-! ### Survival model claims -/

/-- Claim C1: for every `p` in `[0, 1]` the Survival Model returns the
two-term value `(1-p)^n + n·p·(1-p)^(n-1)` for `"bit-flip"` and
`"phase-flip"`, and `(1-p)^n` for `"depolarizing"`; consequently the
returned value lies in `[0, 1]` for every supported code. -/
theorem survival_model_spec (p : ℚ) (h0 : 0 ≤ p) (h1 : p ≤ 1) :
    logical_survival "bit-flip" p =
      .ok ((1 - p)^n_qubits + (n_qubits:ℚ) * p * (1 - p)^(n_qubits - 1)) ∧
    logical_survival "phase-flip" p =
      .ok ((1 - p)^n_qubits + (n_qubits:ℚ) * p * (1 - p)^(n_qubits - 1)) ∧
    logical_survival "depolarizing" p = .ok ((1 - p)^n_qubits) ∧
    ∀ c : Code, 0 ≤ survival c p ∧ survival c p ≤ 1 :=
  ⟨by simp [logical_survival], by simp [logical_survival],
   by simp [logical_survival],
   fun c => ⟨survival_nonneg c p h0 h1, survival_le_one c p h0 h1⟩⟩

/-- Witness for C1 at `p = 1/2`. -/
theorem survival_model_spec_witness :
    logical_survival "depolarizing" (1/2) =
      .ok ((1 - (1/2 : ℚ))^n_qubits) ∧
    ∀ c : Code, 0 ≤ survival c (1/2) ∧ survival c (1/2) ≤ 1 :=
  ⟨(survival_model_spec (1/2) (by norm_num) (by norm_num)).2.2.1,
   (survival_model_spec (1/2) (by norm_num) (by norm_num)).2.2.2⟩

/-- Claim C10 (implicit): for every supported code the Survival Model is
monotonically non-increasing in the noise probability over `[0, 1]` in exact
arithmetic: `p1 ≤ p2` implies `survival(code, p1) ≥ survival(code, p2)`. -/
theorem survival_noninc (c : Code) (p1 p2 : ℚ) (h0 : 0 ≤ p1)
    (h12 : p1 ≤ p2) (h21 : p2 ≤ 1) : survival c p2 ≤ survival c p1 :=
  survival_antitone c p1 p2 h0 h12 h21

/-- Witness for C10 at the endpoints of `[0, 1]`. -/
theorem survival_noninc_witness :
    survival Code.bitFlip 1 ≤ survival Code.bitFlip 0 :=
  survival_noninc Code.bitFlip 0 1 (by norm_num) (by norm_num) (by norm_num)
